import Mathlib

/-!
Verification development for the capture-booking-data-api repository.

The repository's server-side logic is two Next.js route handlers:
  * `POST /api/ask`   (src/src/app/api/ask/route.ts): validates a multipart
    form with a `file` and a `questions` field, makes one upstream model
    call, reconciles the reply into one answer per question, and returns
    JSON with permissive CORS headers;
  * `GET  /api/docs`  (src/src/app/api/docs/route.ts): serves a hard-coded
    allow-list of documentation files.

This file gives a shallow embedding of both handlers and proves / refutes
the specification's claims about them.  JavaScript runtime values that the
handlers inspect (JSON values, form-data entries, truthiness) are modelled
explicitly; library calls with no repository logic (the multipart parser,
the upstream model call, the filesystem) appear as explicit inputs.
-/

/-- Model of a JavaScript JSON value as produced by `JSON.parse`.
Numbers are modelled as integers: the handler never manipulates numeric
values beyond truthiness, and every numeral appearing in the claims is an
integer, so fraction/exponent literals are out of the modelled fragment. -/
inductive Json where
  | null : Json
  | bool (b : Bool) : Json
  | num (n : Int) : Json
  | str (s : String) : Json
  | arr (elems : List Json) : Json
  | obj (members : List (String × Json)) : Json

/-- JavaScript truthiness of a JSON value: `''`, `0`, `false` and `null`
are falsy; every other JSON value (arrays and objects included) is truthy. -/
def Json.truthy : Json → Bool
  | Json.null => false
  | Json.bool b => b
  | Json.num n => n != 0
  | Json.str s => s != ""
  | Json.arr _ => true
  | Json.obj _ => true

/-- The four JSON whitespace characters accepted by `JSON.parse`. -/
def jsonWs (c : Char) : Bool :=
  c = ' ' || c = '\n' || c = '\t' || c = '\r'

/-- Drop leading JSON whitespace. -/
def skipWs : List Char → List Char
  | [] => []
  | c :: cs => if jsonWs c then skipWs cs else c :: cs

/-- Decode one JSON string-escape character (`\u` escapes are outside the
modelled fragment; no claim exercises them). -/
def escChar (e : Char) : Option Char :=
  if e = 'n' then some '\n'
  else if e = 't' then some '\t'
  else if e = 'r' then some '\r'
  else if e = 'b' then some (Char.ofNat 8)
  else if e = 'f' then some (Char.ofNat 12)
  else if e = '"' || e = '\\' || e = '/' then some e
  else none

/-- Parse the body of a JSON string literal (the opening quote already
consumed), returning the decoded string and the rest of the input. -/
def parseStringBody : List Char → Option (String × List Char)
  | [] => none
  | '"' :: rest => some ("", rest)
  | '\\' :: e :: rest =>
      match escChar e with
      | some c =>
          match parseStringBody rest with
          | some (s, r) => some (⟨c :: s.data⟩, r)
          | none => none
      | none => none
  | c :: rest =>
      if c.toNat < 32 then none
      else
        match parseStringBody rest with
        | some (s, r) => some (⟨c :: s.data⟩, r)
        | none => none

/-- Split leading decimal digits off the input. -/
def takeDigits : List Char → List Char × List Char
  | [] => ([], [])
  | c :: cs =>
      if c.isDigit then
        let p := takeDigits cs
        (c :: p.1, p.2)
      else ([], c :: cs)

/-- Numeric value of a digit string. -/
def digitsToNat (ds : List Char) : Nat :=
  ds.foldl (fun a c => a * 10 + (c.toNat - 48)) 0

/-- Parse an unsigned JSON integer numeral: at least one digit, no leading
zero (as in the JSON grammar), and no fraction/exponent continuation. -/
def parseNatNumeral (cs : List Char) : Option (Nat × List Char) :=
  match takeDigits cs with
  | ([], _) => none
  | (d :: ds, rest) =>
      if d = '0' && ds ≠ [] then none
      else
        match rest with
        | '.' :: _ => none
        | 'e' :: _ => none
        | 'E' :: _ => none
        | _ => some (digitsToNat (d :: ds), rest)

/-- Parse a (possibly negative) JSON integer numeral. -/
def parseIntNumeral (cs : List Char) : Option (Int × List Char) :=
  match cs with
  | '-' :: rest =>
      match parseNatNumeral rest with
      | some (n, r) => some (-(n : Int), r)
      | none => none
  | _ =>
      match parseNatNumeral cs with
      | some (n, r) => some ((n : Int), r)
      | none => none

mutual

/-- Fuel-indexed recursive-descent parser for one JSON value.
Mirrors the grammar accepted by JavaScript `JSON.parse` on the modelled
fragment.  Returns the value and the unconsumed input. -/
def parseValue : Nat → List Char → Option (Json × List Char)
  | 0, _ => none
  | Nat.succ fuel, cs =>
      match skipWs cs with
      | [] => none
      | 'n' :: 'u' :: 'l' :: 'l' :: rest => some (Json.null, rest)
      | 't' :: 'r' :: 'u' :: 'e' :: rest => some (Json.bool true, rest)
      | 'f' :: 'a' :: 'l' :: 's' :: 'e' :: rest => some (Json.bool false, rest)
      | '"' :: rest =>
          match parseStringBody rest with
          | some (s, r) => some (Json.str s, r)
          | none => none
      | '[' :: rest =>
          match skipWs rest with
          | ']' :: r => some (Json.arr [], r)
          | cs2 => parseElems fuel cs2 []
      | '{' :: rest =>
          match skipWs rest with
          | '}' :: r => some (Json.obj [], r)
          | cs2 => parseMembers fuel cs2 []
      | c :: rest =>
          match parseIntNumeral (c :: rest) with
          | some (n, r) => some (Json.num n, r)
          | none => none

/-- Parse the remaining elements of a non-empty JSON array,
`acc` holding the elements already parsed. -/
def parseElems : Nat → List Char → List Json → Option (Json × List Char)
  | 0, _, _ => none
  | Nat.succ fuel, cs, acc =>
      match parseValue fuel cs with
      | none => none
      | some (v, rest) =>
          match skipWs rest with
          | ',' :: rest2 => parseElems fuel rest2 (acc ++ [v])
          | ']' :: rest2 => some (Json.arr (acc ++ [v]), rest2)
          | _ => none

/-- Parse the remaining members of a non-empty JSON object,
`acc` holding the members already parsed. -/
def parseMembers : Nat → List Char → List (String × Json) → Option (Json × List Char)
  | 0, _, _ => none
  | Nat.succ fuel, cs, acc =>
      match skipWs cs with
      | '"' :: rest =>
          match parseStringBody rest with
          | none => none
          | some (k, rest1) =>
              match skipWs rest1 with
              | ':' :: rest2 =>
                  match parseValue fuel rest2 with
                  | none => none
                  | some (v, rest3) =>
                      match skipWs rest3 with
                      | ',' :: rest4 => parseMembers fuel rest4 (acc ++ [(k, v)])
                      | '}' :: rest4 => some (Json.obj (acc ++ [(k, v)]), rest4)
                      | _ => none
              | _ => none
      | _ => none

end

/-- Model of JavaScript `JSON.parse` on the modelled fragment: parse one
value and require only trailing whitespace after it; `none` models a thrown
`SyntaxError`. -/
def jsonParse (s : String) : Option Json :=
  match parseValue (2 * s.length + 2) s.data with
  | some (v, rest) => if skipWs rest = [] then some v else none
  | none => none

/-- Index of the first occurrence of `c`, if any. -/
def firstIdx (c : Char) : List Char → Option Nat
  | [] => none
  | d :: ds => if d = c then some 0 else (firstIdx c ds).map (· + 1)

/-- Index of the last occurrence of `c`, if any. -/
def lastIdx (c : Char) (cs : List Char) : Option Nat :=
  match firstIdx c cs.reverse with
  | some k => some (cs.length - 1 - k)
  | none => none

/-- Model of `responseText.match(/\[[\s\S]*\]/)`: the greedy regex matches
from the first `[` of the string to the last `]`, provided that `]` comes
after that `[`; otherwise there is no match. -/
def regexJsonArray (s : String) : Option String :=
  match firstIdx '[' s.data, lastIdx ']' s.data with
  | some i, some j => if i < j then some ⟨(s.data.take (j + 1)).drop i⟩ else none
  | _, _ => none

/-- `String.prototype.split('\n')` on the character list: split at every
newline, keeping empty segments (splitting the empty string gives one
empty segment, as in JavaScript). -/
def splitOnNl : List Char → List (List Char)
  | [] => [[]]
  | c :: cs =>
      if c = '\n' then [] :: splitOnNl cs
      else
        match splitOnNl cs with
        | [] => [[c]]
        | l :: ls => (c :: l) :: ls

/-- The whitespace characters removed by `String.prototype.trim` (the
ASCII ones; exotic unicode whitespace is outside the modelled fragment). -/
def jsWhitespace (c : Char) : Bool :=
  c = ' ' || c = '\t' || c = '\n' || c = '\r' ||
    c = Char.ofNat 11 || c = Char.ofNat 12

/-- The non-empty lines of the reply:
`responseText.split('\n').filter(line => line.trim().length > 0)`.
A line has positive trimmed length exactly when it contains some
non-whitespace character. -/
def nonEmptyLines (t : String) : List String :=
  ((splitOnNl t.data).filter
    (fun l => l.any (fun c => !jsWhitespace c))).map
      (fun l => (⟨l⟩ : String))

/-- Answer extraction from the upstream reply (route.ts lines 132-146):
regex-extract a bracketed substring and `JSON.parse` it; with no bracketed
substring, split into non-empty lines; when the parse throws, the catch
block wraps the whole reply as a single answer.  (A successful parse of a
`[`-prefixed string is always an array; the scalar branch is dead code.) -/
def extractAnswers (responseText : String) : List Json :=
  match regexJsonArray responseText with
  | some m =>
      match jsonParse m with
      | some (Json.arr xs) => xs
      | some j => [j]
      | none => [Json.str responseText]
  | none => (nonEmptyLines responseText).map Json.str

/-- The `while (answers.length < questions.length) answers.push('')`
padding loop (route.ts lines 149-151). -/
def padAnswers (answers : List Json) (n : Nat) : List Json :=
  if answers.length < n then padAnswers (answers ++ [Json.str ""]) n else answers
termination_by n - answers.length
decreasing_by simp; omega

/-- Padding then `answers.slice(0, questions.length)` (route.ts 149-152). -/
def reconcile (answers : List Json) (n : Nat) : List Json :=
  (padAnswers answers n).take n

/-- The JavaScript expression `answers[index] || ''`: out-of-range access
yields `undefined` which is falsy, and a falsy element is replaced by the
empty string. -/
def jsIndexOr (as : List Json) (i : Nat) : Json :=
  match as[i]? with
  | some a => if a.truthy then a else Json.str ""
  | none => Json.str ""

/-- A question/answer pair of the success response body. -/
structure QA where
  question : Json
  answer : Json

/-- `Array.prototype.map` with the element index, as used by
`questions.map((question, index) => ...)`. -/
def mapWithIndex (f : Nat → Json → QA) : Nat → List Json → List QA
  | _, [] => []
  | i, q :: qs => f i q :: mapWithIndex f (i + 1) qs

/-- The zipping step (route.ts lines 155-158). -/
def zipResults (questions answers : List Json) : List QA :=
  mapWithIndex (fun i q => { question := q, answer := jsIndexOr answers i }) 0 questions

/-- An uploaded file: opaque bytes plus a MIME type. -/
structure FileData where
  content : List Nat
  mimeType : String

/-- A multipart form-data entry value: either a file or a text field
(JavaScript `FormDataEntryValue`). -/
inductive FormEntry where
  | file (f : FileData) : FormEntry
  | text (s : String) : FormEntry

/-- JavaScript truthiness of a form entry: a `File` object is always
truthy; a text value is falsy exactly when it is the empty string. -/
def FormEntry.truthy : FormEntry → Bool
  | FormEntry.file _ => true
  | FormEntry.text s => s != ""

/-- `entry.toString()`: the text itself for a text field, the generic
object tag for a `File`. -/
def FormEntry.toStr : FormEntry → String
  | FormEntry.file _ => "[object File]"
  | FormEntry.text s => s

/-- The guard `!file` / `!questionsRaw`: `formData.get` returns `null` for
a missing field (falsy), and a present entry is falsy iff it is an empty
text value. -/
def entryFalsy : Option FormEntry → Bool
  | none => true
  | some e => !e.truthy

/-- `questionsRaw.toString()` lifted to the optional entry (only reached
when the entry is present). -/
def optEntryStr : Option FormEntry → String
  | none => ""
  | some e => e.toStr

/-- The two form fields the handler reads. -/
structure FormDataReq where
  file : Option FormEntry
  questions : Option FormEntry

/-- A response body of `POST /api/ask`: either `{results}` or `{error}`. -/
inductive Body where
  | results (rs : List QA) : Body
  | error (msg : String) : Body

/-- A `POST /api/ask` response: status, JSON body, and the value of the
`Access-Control-Allow-Origin` header when set. -/
structure HandlerResponse where
  status : Nat
  body : Body
  accessControlAllowOrigin : Option String

/-- `NextResponse.json(body, {status, headers: {'Access-Control-Allow-Origin': '*'}})`
as used by all four response sites of the handler. -/
def jsonResponse (body : Body) (status : Nat) : HandlerResponse :=
  { status := status, body := body, accessControlAllowOrigin := some "*" }

/-- `JSON.parse(s)` succeeds and yields an array. -/
def isJsonArrayStr (s : String) : Bool :=
  match jsonParse s with
  | some (Json.arr _) => true
  | _ => false

/-- The input validation of the handler succeeds: both entries truthy and
the questions text parses to a JSON array (exactly the two 400-gates;
nothing about whether the later `file.arrayBuffer()` call will succeed). -/
def validationPasses (form : FormDataReq) : Bool :=
  !entryFalsy form.file && !entryFalsy form.questions &&
    isJsonArrayStr (optEntryStr form.questions)

/-- The message of the `TypeError` thrown by `await file.arrayBuffer()`
when the truthy `file` entry is a text value (a string has no such
method), as rendered by the JavaScript engine. -/
def fileArrayBufferError : String := "file.arrayBuffer is not a function"

/-- The entry supports `arrayBuffer()`: it is an actual uploaded `File`
object, not a text field. -/
def isFileUpload : Option FormEntry → Bool
  | some (FormEntry.file _) => true
  | _ => false

/-- Shallow embedding of the `POST /api/ask` handler (route.ts 58-180).

Inputs that are not repository logic are explicit: `fd` is the outcome of
`req.formData()` (`Except.error` models a thrown exception, carrying its
message), and `upstream` is the outcome of the single
`ai.models.generateContent` call (`Except.error msg` a thrown upstream
failure, `Except.ok replyText` a reply whose `.text` field may be absent,
`?? ''` applied below).  After the two 400-gates, `await
file.arrayBuffer()` (route.ts 96) throws a `TypeError` when the truthy
`file` entry is a text value rather than a `File`; the outer catch turns
it into a 500 before the upstream call is reached.  The second component
counts how many upstream calls were made while handling the request. -/
def POST (fd : Except String FormDataReq) (upstream : Except String (Option String)) :
    HandlerResponse × Nat :=
  match fd with
  | Except.error e => (jsonResponse (Body.error e) 500, 0)
  | Except.ok form =>
      if entryFalsy form.file || entryFalsy form.questions then
        (jsonResponse (Body.error "Missing file or questions") 400, 0)
      else
        match jsonParse (optEntryStr form.questions) with
        | some (Json.arr questions) =>
            match form.file with
            | some (FormEntry.file _) =>
                match upstream with
                | Except.error msg => (jsonResponse (Body.error msg) 500, 1)
                | Except.ok replyText =>
                    let responseText := replyText.getD ""
                    let answers :=
                      reconcile (extractAnswers responseText) questions.length
                    (jsonResponse
                      (Body.results (zipResults questions answers)) 200, 1)
            | _ => (jsonResponse (Body.error fileArrayBufferError) 500, 0)
        | _ => (jsonResponse (Body.error "Invalid JSON format for questions parameter") 400, 0)


/-- Modelled from the spec: the extraction order exactly as the
specification's claim states it — try the regex-extracted JSON array;
"if the reply is not a clean JSON array, fall back to splitting the reply
into its non-empty lines; then fall back to wrapping the whole reply as a
single answer".  Stated from the spec's words for comparison with the
source-derived `extractAnswers`. -/
def extractAnswersClaimed (responseText : String) : List Json :=
  match (regexJsonArray responseText).bind jsonParse with
  | some (Json.arr xs) => xs
  | _ =>
      let ls := (nonEmptyLines responseText).map Json.str
      if ls.isEmpty then [Json.str responseText] else ls

/-- The hard-coded allow-list of servable documentation files
(docs route.ts lines 22-28). -/
def allowedFiles : List String :=
  ["API_DOCUMENTATION.md", "openapi.yaml", "test-api.js", "README.md",
   "src/types/api.ts"]

/-- `path.join(process.cwd(), file)` for the paths this route builds. -/
def pathJoin (cwd file : String) : String := cwd ++ "/" ++ file

/-- Content type chosen from the file extension (docs route.ts 52-61). -/
def docContentType (file : String) : String :=
  if file.endsWith ".md" then "text/markdown"
  else if file.endsWith ".yaml" || file.endsWith ".yml" then
    "application/x-yaml"
  else if file.endsWith ".js" then "application/javascript"
  else if file.endsWith ".ts" then "application/typescript"
  else "text/plain"

/-- A `GET /api/docs` response body: a JSON `{error}` or raw file text. -/
inductive DocsBody where
  | errorJson (msg : String) : DocsBody
  | content (text : String) : DocsBody

/-- A `GET /api/docs` response. -/
structure DocsResponse where
  status : Nat
  body : DocsBody
  contentType : Option String
  accessControlAllowOrigin : Option String

/-- Shallow embedding of the `GET /api/docs` handler (docs route.ts 9-80).
`fileParam` is `searchParams.get('file')` (`none` when absent), and the
filesystem appears as the two oracles `fsExists` (`fs.existsSync`) and
`fsRead` (`fs.readFileSync`).  The second component records which paths
the handler read from disk. -/
def GETdocs (cwd : String) (fileParam : Option String)
    (fsExists : String → Bool) (fsRead : String → String) :
    DocsResponse × List String :=
  match fileParam with
  | none =>
      ({ status := 400, body := DocsBody.errorJson "File parameter is required",
         contentType := none, accessControlAllowOrigin := none }, [])
  | some file =>
      if file = "" then
        ({ status := 400,
           body := DocsBody.errorJson "File parameter is required",
           contentType := none, accessControlAllowOrigin := none }, [])
      else if allowedFiles.contains file then
        if fsExists (pathJoin cwd file) then
          ({ status := 200,
             body := DocsBody.content (fsRead (pathJoin cwd file)),
             contentType := some (docContentType file),
             accessControlAllowOrigin := some "*" }, [pathJoin cwd file])
        else
          ({ status := 404,
             body := DocsBody.errorJson
               ("File not found: " ++ pathJoin cwd file),
             contentType := none, accessControlAllowOrigin := none }, [])
      else
        ({ status := 404,
           body := DocsBody.errorJson "File not found or not allowed",
           contentType := none, accessControlAllowOrigin := none }, [])

/-- A JSON value that is a string. -/
def Json.isStr : Json → Bool
  | Json.str _ => true
  | _ => false

theorem jsonParse_empty : jsonParse "" = none := rfl

theorem truthy_of_toStr_parses (e : FormEntry) (j : Json)
    (h : jsonParse e.toStr = some j) : e.truthy = true := by
  cases e with
  | file f => rfl
  | text s =>
      simp only [FormEntry.toStr] at h
      by_contra hs
      simp only [FormEntry.truthy, bne_iff_ne, ne_eq, Bool.not_eq_true,
        decide_eq_false_iff_not, not_not] at hs
      rw [hs, jsonParse_empty] at h
      cases h

theorem padAnswers_eq (a : List Json) (n : Nat) :
    padAnswers a n = a ++ List.replicate (n - a.length) (Json.str "") := by
  rw [padAnswers]
  split
  · rename_i h
    rw [padAnswers_eq (a ++ [Json.str ""]) n]
    have h2 : n - a.length = (n - (a ++ [Json.str ""]).length) + 1 := by
      simp only [List.length_append, List.length_cons, List.length_nil]
      omega
    rw [h2, List.append_assoc]
    congr 1
  · rename_i h
    have h0 : n - a.length = 0 := by omega
    simp [h0]
termination_by n - a.length
decreasing_by simp; omega

theorem reconcile_of_lt (a : List Json) (n : Nat) (h : a.length < n) :
    reconcile a n = a ++ List.replicate (n - a.length) (Json.str "") := by
  rw [reconcile, padAnswers_eq]
  apply List.take_of_length_le
  simp
  omega

theorem reconcile_of_gt (a : List Json) (n : Nat) (h : n < a.length) :
    reconcile a n = a.take n := by
  rw [reconcile, padAnswers_eq]
  have h0 : n - a.length = 0 := by omega
  simp [h0]

theorem reconcile_getElem? (a : List Json) (n i : Nat) (hia : i < a.length)
    (hin : i < n) : (reconcile a n)[i]? = a[i]? := by
  rw [reconcile, padAnswers_eq, List.getElem?_take_of_lt hin,
    List.getElem?_append_left hia]

theorem mapWithIndex_getElem? (f : Nat → Json → QA) (qs : List Json) :
    ∀ (i k : Nat), (mapWithIndex f i qs)[k]? = (qs[k]?).map (f (i + k)) := by
  induction qs with
  | nil => intro i k; simp [mapWithIndex]
  | cons q qs ih =>
      intro i k
      cases k with
      | zero => simp [mapWithIndex]
      | succ k =>
          have harith : i + 1 + k = i + (k + 1) := by omega
          simp only [mapWithIndex, List.getElem?_cons_succ, ih (i + 1) k, harith]

theorem mapWithIndex_map_question (f : Nat → Json → QA)
    (hf : ∀ i q, (f i q).question = q) :
    ∀ (i : Nat) (qs : List Json), (mapWithIndex f i qs).map QA.question = qs := by
  intro i qs
  induction qs generalizing i with
  | nil => rfl
  | cons q qs ih => simp [mapWithIndex, hf, ih]

theorem zipResults_getElem? (qs as : List Json) (k : Nat) :
    (zipResults qs as)[k]? =
      (qs[k]?).map (fun q => { question := q, answer := jsIndexOr as k }) := by
  rw [zipResults, mapWithIndex_getElem?]
  simp

theorem zipResults_map_question (qs as : List Json) :
    (zipResults qs as).map QA.question = qs :=
  mapWithIndex_map_question _ (fun _ _ => rfl) 0 qs

/-- C5: for every extracted answer list `a` and question count `n`
(the handler calls `reconcile` with `n` the number of questions): if `a`
has fewer items than `n` the list used for zipping is `a` padded at the
end with empty strings up to length `n`; if it has more it is truncated to
the first `n` items; and every element at an index below
`min (a.length) n` keeps its value and position. -/
theorem C5_pad_truncate (a : List Json) (n : Nat) :
    (a.length < n →
      reconcile a n = a ++ List.replicate (n - a.length) (Json.str "")) ∧
    (n < a.length → reconcile a n = a.take n) ∧
    (∀ i, i < a.length → i < n → (reconcile a n)[i]? = a[i]?) :=
  ⟨reconcile_of_lt a n, reconcile_of_gt a n,
    fun i hia hin => reconcile_getElem? a n i hia hin⟩

/-- Witness for C5 at concrete inputs: a one-element answer list padded to
three questions, a four-element list truncated to two, and preservation of
the element at index 0. -/
theorem C5_pad_truncate_witness :
    reconcile [Json.str "a"] 3 =
      [Json.str "a"] ++ List.replicate 2 (Json.str "") ∧
    reconcile [Json.null, Json.str "x", Json.str "y", Json.str "z"] 2 =
      [Json.null, Json.str "x", Json.str "y", Json.str "z"].take 2 ∧
    (reconcile [Json.str "a"] 3)[0]? = [Json.str "a"][0]? :=
  ⟨(C5_pad_truncate [Json.str "a"] 3).1 (by decide),
   (C5_pad_truncate [Json.null, Json.str "x", Json.str "y", Json.str "z"] 2).2.1
     (by decide),
   (C5_pad_truncate [Json.str "a"] 3).2.2 0 (by decide) (by decide)⟩

/-- C9: in the zipping step, `results[i].answer` is the reconciled
`answers[i]` when that element is truthy and the empty string when it is
falsy; hence a falsy non-string element (`null`, `0`, `false`) becomes the
empty string while a truthy non-string element passes through unchanged. -/
theorem C9_answer_truthiness (qs as : List Json) (i : Nat) (q a : Json)
    (hq : qs[i]? = some q) (ha : as[i]? = some a) :
    (zipResults qs as)[i]? =
      some { question := q, answer := if a.truthy then a else Json.str "" } := by
  rw [zipResults_getElem?, hq, Option.map_some']
  have hja : jsIndexOr as i = if a.truthy then a else Json.str "" := by
    rw [jsIndexOr, ha]
  rw [hja]

/-- Witness for C9: the parsed reply `[null, 7]` zipped against two
questions — the falsy `null` is replaced by `''`, the truthy number `7`
is passed through (a non-string answer). -/
theorem C9_answer_truthiness_witness :
    (zipResults [Json.str "q1", Json.str "q2"] [Json.null, Json.num 7])[0]? =
      some { question := Json.str "q1", answer := Json.str "" } ∧
    (zipResults [Json.str "q1", Json.str "q2"] [Json.null, Json.num 7])[1]? =
      some { question := Json.str "q2", answer := Json.num 7 } :=
  ⟨C9_answer_truthiness [Json.str "q1", Json.str "q2"] [Json.null, Json.num 7]
      0 (Json.str "q1") Json.null rfl rfl,
   C9_answer_truthiness [Json.str "q1", Json.str "q2"] [Json.null, Json.num 7]
      1 (Json.str "q2") (Json.num 7) rfl rfl⟩

/-- C8: every response of the `POST /api/ask` handler — 200, 400 and 500
alike — carries `Access-Control-Allow-Origin: *`. -/
theorem C8_cors_on_all_responses (fd : Except String FormDataReq)
    (up : Except String (Option String)) :
    ((POST fd up).1).accessControlAllowOrigin = some "*" := by
  cases fd with
  | error e => rfl
  | ok form =>
      simp only [POST]
      split
      · rfl
      · split
        · split
          · cases up <;> rfl
          · rfl
        · rfl

/-- C10: a `questions` field equal to the string `[]` passes validation
(no 400), the single upstream call is still made, and for every upstream
reply the response is 200 with an empty `results` array. -/
theorem C10_empty_questions_array (f : FileData)
    (up : Except String (Option String)) (rt : Option String) :
    ((POST (Except.ok ⟨some (FormEntry.file f), some (FormEntry.text "[]")⟩)
        up).1.status ≠ 400) ∧
    ((POST (Except.ok ⟨some (FormEntry.file f), some (FormEntry.text "[]")⟩)
        up).2 = 1) ∧
    ((POST (Except.ok ⟨some (FormEntry.file f), some (FormEntry.text "[]")⟩)
        (Except.ok rt)).1 = jsonResponse (Body.results []) 200) := by
  refine ⟨?_, ?_, rfl⟩
  · cases up with
    | error msg =>
        show (500 : Nat) ≠ 400
        decide
    | ok r =>
        show (200 : Nat) ≠ 400
        decide
  · cases up <;> rfl

theorem isJsonArrayStr_true_elim (s : String) (h : isJsonArrayStr s = true) :
    ∃ xs, jsonParse s = some (Json.arr xs) := by
  unfold isJsonArrayStr at h
  rcases hj : jsonParse s with _ | j <;> rw [hj] at h
  · cases h
  · cases j <;> simp_all

theorem POST_formdata_error (e : String) (up : Except String (Option String)) :
    POST (Except.error e) up = (jsonResponse (Body.error e) 500, 0) := rfl

theorem POST_missing (form : FormDataReq) (up : Except String (Option String))
    (h : (entryFalsy form.file || entryFalsy form.questions) = true) :
    POST (Except.ok form) up =
      (jsonResponse (Body.error "Missing file or questions") 400, 0) := by
  simp only [POST, h, if_true]

theorem POST_invalid (form : FormDataReq) (up : Except String (Option String))
    (hf : entryFalsy form.file = false)
    (hq : entryFalsy form.questions = false)
    (hj : isJsonArrayStr (optEntryStr form.questions) = false) :
    POST (Except.ok form) up =
      (jsonResponse
        (Body.error "Invalid JSON format for questions parameter") 400, 0) := by
  simp only [POST, hf, hq, Bool.or_self, Bool.false_eq_true, if_false]
  unfold isJsonArrayStr at hj
  rcases hjs : jsonParse (optEntryStr form.questions) with _ | j
  · rfl
  · cases j <;> first
      | rfl
      | (rw [hjs] at hj; simp at hj)

theorem isFileUpload_true_elim (o : Option FormEntry)
    (h : isFileUpload o = true) : ∃ f, o = some (FormEntry.file f) := by
  rcases o with _ | e
  · cases h
  · cases e with
    | file f => exact ⟨f, rfl⟩
    | text s => cases h

theorem POST_upstream_error (form : FormDataReq) (qs : List Json) (msg : String)
    (f : FileData)
    (hf2 : form.file = some (FormEntry.file f))
    (hq : entryFalsy form.questions = false)
    (hqs : jsonParse (optEntryStr form.questions) = some (Json.arr qs)) :
    POST (Except.ok form) (Except.error msg) =
      (jsonResponse (Body.error msg) 500, 1) := by
  simp only [POST, hq, Bool.or_false, hqs, hf2]
  simp [entryFalsy, FormEntry.truthy]

theorem POST_success (form : FormDataReq) (qs : List Json) (r : Option String)
    (f : FileData)
    (hf2 : form.file = some (FormEntry.file f))
    (hq : entryFalsy form.questions = false)
    (hqs : jsonParse (optEntryStr form.questions) = some (Json.arr qs)) :
    POST (Except.ok form) (Except.ok r) =
      (jsonResponse
        (Body.results (zipResults qs
          (reconcile (extractAnswers (r.getD "")) qs.length))) 200, 1) := by
  simp only [POST, hq, Bool.or_false, hqs, hf2]
  simp [entryFalsy, FormEntry.truthy]

theorem POST_arraybuffer_error (form : FormDataReq) (qs : List Json)
    (up : Except String (Option String)) (s : String)
    (hf2 : form.file = some (FormEntry.text s)) (hs : s ≠ "")
    (hq : entryFalsy form.questions = false)
    (hqs : jsonParse (optEntryStr form.questions) = some (Json.arr qs)) :
    POST (Except.ok form) up =
      (jsonResponse (Body.error fileArrayBufferError) 500, 0) := by
  simp only [POST, hq, Bool.or_false, hqs, hf2]
  simp [entryFalsy, FormEntry.truthy, hs]

/-- C1: for a request whose form data contains a file and a `questions`
field that JSON-decodes to an array of strings, and for every upstream
reply, the 200 body is `{results}` where the questions of `results`, read
in index order, are exactly the input questions (one entry per question,
order preserved). -/
theorem C1_results_match_questions (f : FileData) (e : FormEntry)
    (qs : List Json) (r : Option String)
    (hq : jsonParse e.toStr = some (Json.arr qs))
    (_hstr : qs.all Json.isStr = true) :
    ((POST (Except.ok ⟨some (FormEntry.file f), some e⟩)
        (Except.ok r)).1).status = 200 ∧
    ∃ rs, ((POST (Except.ok ⟨some (FormEntry.file f), some e⟩)
        (Except.ok r)).1).body = Body.results rs ∧ rs.map QA.question = qs := by
  have htr : e.truthy = true := truthy_of_toStr_parses e _ hq
  have hqe : entryFalsy (some e) = false := by simp [entryFalsy, htr]
  have hqs : jsonParse (optEntryStr (some e)) = some (Json.arr qs) := hq
  rw [POST_success ⟨some (FormEntry.file f), some e⟩ qs r f rfl hqe hqs]
  exact ⟨rfl, _, rfl, zipResults_map_question _ _⟩

/-- Witness for C1: a PNG file and two questions, with a free-text
upstream reply. -/
theorem C1_results_match_questions_witness :
    ((POST (Except.ok ⟨some (FormEntry.file ⟨[137], "image/png"⟩),
        some (FormEntry.text "[\"hotel name?\",\"total price?\"]")⟩)
        (Except.ok (some "no json here"))).1).status = 200 ∧
    ∃ rs, ((POST (Except.ok ⟨some (FormEntry.file ⟨[137], "image/png"⟩),
        some (FormEntry.text "[\"hotel name?\",\"total price?\"]")⟩)
        (Except.ok (some "no json here"))).1).body = Body.results rs ∧
      rs.map QA.question = [Json.str "hotel name?", Json.str "total price?"] :=
  C1_results_match_questions ⟨[137], "image/png"⟩
    (FormEntry.text "[\"hotel name?\",\"total price?\"]")
    [Json.str "hotel name?", Json.str "total price?"]
    (some "no json here") (by rfl) (by rfl)

/-- C3: every modelled exception site surfaces as a 500 whose `{error}`
body is the thrown exception's message verbatim: a failure while reading
the form data, an upstream model failure on a validated request whose
`file` entry is an actual upload, and the `TypeError` thrown by
`file.arrayBuffer()` when a truthy text `file` entry reaches it. -/
theorem C3_exceptions_surface_as_500 (e msg : String) (form : FormDataReq)
    (up : Except String (Option String))
    (hpass : validationPasses form = true)
    (hfile : isFileUpload form.file = true) :
    (POST (Except.error e) up).1 = jsonResponse (Body.error e) 500 ∧
    (POST (Except.ok form) (Except.error msg)).1 =
      jsonResponse (Body.error msg) 500 ∧
    (∀ (s : String) (q : FormEntry) (xs : List Json)
        (up2 : Except String (Option String)), s ≠ "" →
      jsonParse q.toStr = some (Json.arr xs) →
      (POST (Except.ok ⟨some (FormEntry.text s), some q⟩) up2).1 =
        jsonResponse (Body.error fileArrayBufferError) 500) := by
  refine ⟨rfl, ?_, ?_⟩
  · simp only [validationPasses, Bool.and_eq_true, Bool.not_eq_true'] at hpass
    obtain ⟨⟨hf, hqe⟩, hja⟩ := hpass
    obtain ⟨xs, hxs⟩ := isJsonArrayStr_true_elim _ hja
    obtain ⟨f, hf2⟩ := isFileUpload_true_elim _ hfile
    rw [POST_upstream_error form xs msg f hf2 hqe hxs]
  · intro s q xs up2 hs hq
    have htr : q.truthy = true := truthy_of_toStr_parses q _ hq
    have hqe : entryFalsy (some q) = false := by simp [entryFalsy, htr]
    rw [POST_arraybuffer_error ⟨some (FormEntry.text s), some q⟩ xs up2 s rfl
      hs hqe hq]

/-- Witness for C3: a thrown form-data error "boom", an upstream failure
"upstream failed" on a validated request carrying a real file, and a
truthy text `file` entry "x" that triggers the `arrayBuffer` TypeError. -/
theorem C3_exceptions_surface_as_500_witness :
    (POST (Except.error "boom") (Except.ok none)).1 =
      jsonResponse (Body.error "boom") 500 ∧
    (POST (Except.ok ⟨some (FormEntry.file ⟨[], "image/png"⟩),
        some (FormEntry.text "[\"q\"]")⟩)
        (Except.error "upstream failed")).1 =
      jsonResponse (Body.error "upstream failed") 500 ∧
    (POST (Except.ok ⟨some (FormEntry.text "x"),
        some (FormEntry.text "[\"q\"]")⟩) (Except.ok none)).1 =
      jsonResponse (Body.error fileArrayBufferError) 500 :=
  have h := C3_exceptions_surface_as_500 "boom" "upstream failed"
    ⟨some (FormEntry.file ⟨[], "image/png"⟩), some (FormEntry.text "[\"q\"]")⟩
    (Except.ok none) (by rfl) (by rfl)
  ⟨h.1, h.2.1, h.2.2 "x" (FormEntry.text "[\"q\"]") [Json.str "q"]
    (Except.ok none) (by decide) (by rfl)⟩

/-- C6 as stated is false of the program: a multipart TEXT field named
`file` with a non-empty value is truthy, so both 400-gates pass
(validation passes), but `await file.arrayBuffer()` then throws a
`TypeError` — a string has no such method — and the outer catch returns a
500 before `generateContent` is ever reached: zero upstream calls despite
passing validation. -/
theorem C6_upstream_call_counterexample :
    validationPasses ⟨some (FormEntry.text "x"),
      some (FormEntry.text "[\"q\"]")⟩ = true ∧
    (POST (Except.ok ⟨some (FormEntry.text "x"),
        some (FormEntry.text "[\"q\"]")⟩) (Except.ok (some "reply"))).2 = 0 :=
  ⟨by decide, rfl⟩

/-- C6 amended: the handler makes at most one upstream call per request;
the call count is exactly one when validation passes AND the `file` entry
is an actual uploaded `File` (so `file.arrayBuffer()` succeeds and the
call site is reached), and zero otherwise — in particular a truthy text
`file` field passes validation yet throws before the upstream call. -/
theorem C6_upstream_call_amended (fd : Except String FormDataReq)
    (up : Except String (Option String)) :
    (POST fd up).2 ≤ 1 ∧
    (POST fd up).2 = (match fd with
      | Except.ok form =>
          if validationPasses form && isFileUpload form.file then 1 else 0
      | Except.error _ => 0) := by
  have hchar : (POST fd up).2 = (match fd with
      | Except.ok form =>
          if validationPasses form && isFileUpload form.file then 1 else 0
      | Except.error _ => 0) := by
    cases fd with
    | error e => rw [POST_formdata_error]
    | ok form =>
        obtain ⟨ff, fq⟩ := form
        by_cases hv : validationPasses ⟨ff, fq⟩ = true
        · have hpass := hv
          simp only [validationPasses, Bool.and_eq_true, Bool.not_eq_true']
            at hpass
          obtain ⟨⟨hf, hqe⟩, hja⟩ := hpass
          obtain ⟨xs, hxs⟩ := isJsonArrayStr_true_elim _ hja
          rcases ff with _ | e2
          · cases hf
          · cases e2 with
            | file f =>
                cases up with
                | error msg =>
                    rw [POST_upstream_error ⟨some (FormEntry.file f), fq⟩
                      xs msg f rfl hqe hxs]
                    simp [hv, isFileUpload]
                | ok r =>
                    rw [POST_success ⟨some (FormEntry.file f), fq⟩
                      xs r f rfl hqe hxs]
                    simp [hv, isFileUpload]
            | text s =>
                have hs : s ≠ "" := by
                  simpa [entryFalsy, FormEntry.truthy] using hf
                rw [POST_arraybuffer_error ⟨some (FormEntry.text s), fq⟩
                  xs up s rfl hs hqe hxs]
                simp [isFileUpload]
        · have hv2 : validationPasses ⟨ff, fq⟩ = false := by
            cases h : validationPasses ⟨ff, fq⟩
            · rfl
            · exact absurd h hv
          by_cases hmiss : (entryFalsy ff || entryFalsy fq) = true
          · rw [POST_missing ⟨ff, fq⟩ up hmiss]; simp [hv2]
          · have hf : entryFalsy ff = false := by
              cases h : entryFalsy ff
              · rfl
              · exact absurd (by simp [h]) hmiss
            have hqe : entryFalsy fq = false := by
              cases h : entryFalsy fq
              · rfl
              · exact absurd (by simp [h]) hmiss
            have hja : isJsonArrayStr (optEntryStr fq) = false := by
              simpa [validationPasses, hf, hqe] using hv2
            rw [POST_invalid ⟨ff, fq⟩ up hf hqe hja]
            simp [hv2]
  refine ⟨?_, hchar⟩
  rw [hchar]
  cases fd with
  | error _ => simp
  | ok form =>
      by_cases h : (validationPasses form && isFileUpload form.file) = true <;>
        simp [h]

theorem firstIdx_none (c : Char) (cs : List Char) (h : firstIdx c cs = none) :
    ∀ k : Nat, cs[k]? ≠ some c := by
  induction cs with
  | nil => intro k; simp
  | cons d ds ih =>
      simp only [firstIdx] at h
      by_cases hd : d = c
      · rw [if_pos hd] at h; cases h
      · rw [if_neg hd] at h
        have h' : firstIdx c ds = none := by
          rcases hfi : firstIdx c ds with _ | i
          · rfl
          · rw [hfi] at h; cases h
        intro k
        cases k with
        | zero =>
            simp only [List.getElem?_cons_zero]
            intro hk
            exact hd (Option.some.inj hk)
        | succ k =>
            simp only [List.getElem?_cons_succ]
            exact ih h' k

theorem firstIdx_some (c : Char) (cs : List Char) :
    ∀ i : Nat, firstIdx c cs = some i →
      cs[i]? = some c ∧ ∀ k : Nat, cs[k]? = some c → i ≤ k := by
  induction cs with
  | nil => intro i h; cases h
  | cons d ds ih =>
      intro i h
      simp only [firstIdx] at h
      by_cases hd : d = c
      · rw [if_pos hd] at h
        have hi : i = 0 := (Option.some.inj h).symm
        subst hi
        subst hd
        exact ⟨by simp, fun k _ => Nat.zero_le k⟩
      · rw [if_neg hd] at h
        rcases hfi : firstIdx c ds with _ | i'
        · rw [hfi] at h; cases h
        · rw [hfi] at h
          have hii : i = i' + 1 := (Option.some.inj h).symm
          subst hii
          obtain ⟨h1, h2⟩ := ih i' hfi
          refine ⟨by simpa using h1, ?_⟩
          intro k hk
          cases k with
          | zero =>
              exfalso
              apply hd
              exact Option.some.inj (by simpa using hk)
          | succ k =>
              have := h2 k (by simpa using hk)
              omega

theorem lastIdx_none (c : Char) (cs : List Char) (h : lastIdx c cs = none) :
    ∀ k : Nat, cs[k]? ≠ some c := by
  unfold lastIdx at h
  rcases hfi : firstIdx c cs.reverse with _ | k0
  · intro k hk
    have hklen : k < cs.length := by
      have := (List.getElem?_eq_some.mp hk).1
      exact this
    have hj : cs.length - 1 - k < cs.length := by omega
    have hrev : cs.reverse[cs.length - 1 - k]? = some c := by
      rw [List.getElem?_reverse hj]
      have heq : cs.length - 1 - (cs.length - 1 - k) = k := by omega
      rw [heq]
      exact hk
    exact firstIdx_none c cs.reverse hfi _ hrev
  · rw [hfi] at h; cases h

theorem lastIdx_some (c : Char) (cs : List Char) (j : Nat)
    (h : lastIdx c cs = some j) :
    cs[j]? = some c ∧ ∀ k : Nat, cs[k]? = some c → k ≤ j := by
  unfold lastIdx at h
  rcases hfi : firstIdx c cs.reverse with _ | k0
  · rw [hfi] at h; cases h
  · rw [hfi] at h
    have hj : j = cs.length - 1 - k0 := (Option.some.inj h).symm
    obtain ⟨h1, h2⟩ := firstIdx_some c cs.reverse k0 hfi
    have hk0len : k0 < cs.length := by
      have := (List.getElem?_eq_some.mp h1).1
      simpa using this
    constructor
    · subst hj
      rw [← List.getElem?_reverse hk0len]
      exact h1
    · intro k hk
      have hklen : k < cs.length := (List.getElem?_eq_some.mp hk).1
      have hrevk : cs.reverse[cs.length - 1 - k]? = some c := by
        have hlt : cs.length - 1 - k < cs.length := by omega
        rw [List.getElem?_reverse hlt]
        have heq : cs.length - 1 - (cs.length - 1 - k) = k := by omega
        rw [heq]
        exact hk
      have hle := h2 _ hrevk
      omega

theorem regexJsonArray_none_iff (s : String) :
    regexJsonArray s = none ↔
      ∀ i j : Nat, i < j → s.data[i]? = some '[' → s.data[j]? ≠ some ']' := by
  unfold regexJsonArray
  rcases hfi : firstIdx '[' s.data with _ | i0 <;>
    rcases hla : lastIdx ']' s.data with _ | j0
  · exact iff_of_true rfl
      (fun i j hij hi _ => absurd hi (firstIdx_none _ _ hfi i))
  · exact iff_of_true rfl
      (fun i j hij hi _ => absurd hi (firstIdx_none _ _ hfi i))
  · exact iff_of_true rfl
      (fun i j hij _ hj => absurd hj (lastIdx_none _ _ hla j))
  · obtain ⟨hi0, hmin⟩ := firstIdx_some '[' s.data i0 hfi
    obtain ⟨hj0, hmax⟩ := lastIdx_some ']' s.data j0 hla
    show (if i0 < j0 then some (⟨(s.data.take (j0 + 1)).drop i0⟩ : String)
        else none) = none ↔ _
    by_cases hlt : i0 < j0
    · rw [if_pos hlt]
      refine iff_of_false (by simp) ?_
      intro hno
      exact hno i0 j0 hlt hi0 hj0
    · rw [if_neg hlt]
      refine iff_of_true rfl ?_
      intro i j hij hi hj
      have h1 := hmin i hi
      have h2 := hmax j hj
      omega

/-- C4 as stated is false: for the reply `"[a\nb]"` — which is not a clean
JSON array — the code does NOT fall back to splitting into non-empty lines
(which would give two answers); the bracketed substring is regex-extracted,
its parse throws, and the catch wraps the whole reply as one answer.  The
source-derived `extractAnswers` and the spec-ordered
`extractAnswersClaimed` disagree at this input. -/
theorem C4_extraction_order_counterexample :
    extractAnswers "[a\nb]" ≠ extractAnswersClaimed "[a\nb]" := by
  intro h
  have hlen := congrArg List.length h
  have h1 : (extractAnswers "[a\nb]").length = 1 := by decide
  have h2 : (extractAnswersClaimed "[a\nb]").length = 2 := by decide
  rw [h1, h2] at hlen
  exact absurd hlen (by decide)

/-- C4 amended: the answer extraction tries the fallbacks in this order —
when the reply has no bracketed substring (no `[` before a `]`) it is
split into its non-empty lines; when a bracketed substring is extracted
but fails to JSON-parse, the whole reply is wrapped as a single answer
(line-splitting is skipped); when the extracted substring parses as a
JSON array, its elements are the answers. -/
theorem C4_extraction_order_amended (t m : String) :
    ((∀ i j : Nat, i < j → t.data[i]? = some '[' → t.data[j]? ≠ some ']') →
      extractAnswers t = (nonEmptyLines t).map Json.str) ∧
    (regexJsonArray t = some m → jsonParse m = none →
      extractAnswers t = [Json.str t]) ∧
    (∀ xs, regexJsonArray t = some m → jsonParse m = some (Json.arr xs) →
      extractAnswers t = xs) := by
  refine ⟨?_, ?_, ?_⟩
  · intro h
    have hr : regexJsonArray t = none := (regexJsonArray_none_iff t).mpr h
    simp [extractAnswers, hr]
  · intro hr hp
    simp [extractAnswers, hr, hp]
  · intro xs hr hp
    simp [extractAnswers, hr, hp]

/-- Witness for C4's amendment: a bracket-free reply is line-split, the
unparseable `"[a\nb]"` is wrapped whole, and a parseable embedded array is
taken verbatim. -/
theorem C4_extraction_order_amended_witness :
    extractAnswers "line one\nline two" =
      (nonEmptyLines "line one\nline two").map Json.str ∧
    extractAnswers "[a\nb]" = [Json.str "[a\nb]"] ∧
    extractAnswers "answers: [\"x\"] done" = [Json.str "x"] :=
  ⟨(C4_extraction_order_amended "line one\nline two" "").1
     ((regexJsonArray_none_iff "line one\nline two").mp (by decide)),
   (C4_extraction_order_amended "[a\nb]" "[a\nb]").2.1 rfl rfl,
   (C4_extraction_order_amended "answers: [\"x\"] done" "[\"x\"]").2.2
     [Json.str "x"] rfl rfl⟩

/-- C2 as stated is false: the handler's `!file` test uses JavaScript
falsiness, so a request whose `file` field is PRESENT but holds the empty
text value gets a 400 even though both fields are present and `questions`
parses to a JSON array — the claimed "no 400" direction fails. -/
theorem C2_400_iff_counterexample :
    ¬ ((((POST (Except.ok ⟨some (FormEntry.text ""),
          some (FormEntry.text "[\"q\"]")⟩)
          (Except.ok (some "reply"))).1).status = 400) ↔
        ((some (FormEntry.text "") : Option FormEntry) = none ∨
         (some (FormEntry.text "[\"q\"]") : Option FormEntry) = none ∨
         isJsonArrayStr ((FormEntry.text "[\"q\"]").toStr) = false)) := by
  intro h
  rcases h.mp rfl with h1 | h1 | h1
  · exact Option.noConfusion h1
  · exact Option.noConfusion h1
  · rw [show isJsonArrayStr ((FormEntry.text "[\"q\"]").toStr) = true
        from rfl] at h1
    exact Bool.noConfusion h1

/-- C2 amended: `POST /api/ask` returns 400 iff the `file` field is
missing or falsy (present as an empty text value), or the `questions`
field is missing or falsy, or the `questions` text does not JSON-parse to
an array; every request with a truthy file entry and a questions value
parsing to a JSON array avoids the 400. -/
theorem C2_400_iff_amended (fileEntry questionsEntry : Option FormEntry)
    (up : Except String (Option String)) :
    (((POST (Except.ok ⟨fileEntry, questionsEntry⟩) up).1).status = 400) ↔
      (entryFalsy fileEntry = true ∨ entryFalsy questionsEntry = true ∨
       isJsonArrayStr (optEntryStr questionsEntry) = false) := by
  by_cases hmiss : (entryFalsy fileEntry || entryFalsy questionsEntry) = true
  · rw [POST_missing ⟨fileEntry, questionsEntry⟩ up hmiss]
    refine iff_of_true rfl ?_
    rcases (by simpa using hmiss :
        entryFalsy fileEntry = true ∨ entryFalsy questionsEntry = true) with
      h | h
    · exact Or.inl h
    · exact Or.inr (Or.inl h)
  · have hf : entryFalsy fileEntry = false := by
      cases h : entryFalsy fileEntry
      · rfl
      · exact absurd (by simp [h]) hmiss
    have hqe : entryFalsy questionsEntry = false := by
      cases h : entryFalsy questionsEntry
      · rfl
      · exact absurd (by simp [h]) hmiss
    by_cases hja : isJsonArrayStr (optEntryStr questionsEntry) = true
    · obtain ⟨xs, hxs⟩ := isJsonArrayStr_true_elim _ hja
      rcases fileEntry with _ | e2
      · simp [entryFalsy] at hf
      · cases e2 with
        | file f =>
            cases up with
            | error msg =>
                rw [POST_upstream_error ⟨some (FormEntry.file f), questionsEntry⟩
                  xs msg f rfl hqe hxs]
                refine iff_of_false (fun hcon => ?_) ?_
                · exact absurd hcon (by simp [jsonResponse])
                · simp [hf, hqe, hja]
            | ok r =>
                rw [POST_success ⟨some (FormEntry.file f), questionsEntry⟩
                  xs r f rfl hqe hxs]
                refine iff_of_false (fun hcon => ?_) ?_
                · exact absurd hcon (by simp [jsonResponse])
                · simp [hf, hqe, hja]
        | text s =>
            have hs : s ≠ "" := by
              simpa [entryFalsy, FormEntry.truthy] using hf
            rw [POST_arraybuffer_error ⟨some (FormEntry.text s), questionsEntry⟩
              xs up s rfl hs hqe hxs]
            refine iff_of_false (fun hcon => ?_) ?_
            · exact absurd hcon (by simp [jsonResponse])
            · simp [hf, hqe, hja]
    · have hja' : isJsonArrayStr (optEntryStr questionsEntry) = false := by
        cases h : isJsonArrayStr (optEntryStr questionsEntry)
        · rfl
        · exact absurd h hja
      rw [POST_invalid ⟨fileEntry, questionsEntry⟩ up hf hqe hja']
      exact iff_of_true rfl (Or.inr (Or.inr hja'))

/-- C7 as stated is false for the present-but-empty query `?file=`:
`searchParams.get('file')` returns the empty string, which fails the
handler's `!file` falsiness test, so the response is 400 — not the 404
the claim requires for every present non-allow-listed value. -/
theorem C7_docs_allowlist_counterexample :
    allowedFiles.contains "" = false ∧
    (GETdocs "/app" (some "") (fun _ => true) (fun _ => "content")).1.status
      = 400 :=
  ⟨rfl, rfl⟩

/-- C7 amended: an absent or empty `file` parameter gives 400; a present
non-empty value outside the five-entry allow-list gives 404 with no file
read from disk (so no path-traversal input is served); an allow-listed
value that exists on disk gives 200 with the raw file content, reading
exactly that file. -/
theorem C7_docs_allowlist_amended (cwd name : String)
    (fsExists : String → Bool) (fsRead : String → String) :
    (GETdocs cwd none fsExists fsRead).1.status = 400 ∧
    (GETdocs cwd (some "") fsExists fsRead).1.status = 400 ∧
    (name ≠ "" → allowedFiles.contains name = false →
      (GETdocs cwd (some name) fsExists fsRead).1.status = 404 ∧
      (GETdocs cwd (some name) fsExists fsRead).2 = []) ∧
    (allowedFiles.contains name = true →
      fsExists (pathJoin cwd name) = true →
      (GETdocs cwd (some name) fsExists fsRead).1 =
        { status := 200,
          body := DocsBody.content (fsRead (pathJoin cwd name)),
          contentType := some (docContentType name),
          accessControlAllowOrigin := some "*" } ∧
      (GETdocs cwd (some name) fsExists fsRead).2 = [pathJoin cwd name]) := by
  refine ⟨rfl, rfl, ?_, ?_⟩
  · intro hne hna
    have hmem : name ∉ allowedFiles := by simpa using hna
    simp [GETdocs, hne, hmem]
  · intro hal hex
    have hne : name ≠ "" := by
      intro h0
      rw [h0] at hal
      exact absurd hal (by decide)
    have hmem : name ∈ allowedFiles := by simpa using hal
    simp [GETdocs, hne, hmem, hex]

/-- Witness for C7's amendment: the traversal-style name `"../secret"` is
rejected with 404 and zero disk reads, while the allow-listed
`"README.md"` is served with its content. -/
theorem C7_docs_allowlist_amended_witness :
    ((GETdocs "/app" (some "../secret") (fun _ => true)
        (fun _ => "hello")).1.status = 404 ∧
     (GETdocs "/app" (some "../secret") (fun _ => true)
        (fun _ => "hello")).2 = []) ∧
    ((GETdocs "/app" (some "README.md") (fun _ => true)
        (fun _ => "hello")).1 =
        { status := 200, body := DocsBody.content "hello",
          contentType := some (docContentType "README.md"),
          accessControlAllowOrigin := some "*" } ∧
     (GETdocs "/app" (some "README.md") (fun _ => true)
        (fun _ => "hello")).2 = [pathJoin "/app" "README.md"]) :=
  ⟨(C7_docs_allowlist_amended "/app" "../secret" (fun _ => true)
      (fun _ => "hello")).2.2.1 (by decide) (by decide),
   (C7_docs_allowlist_amended "/app" "README.md" (fun _ => true)
      (fun _ => "hello")).2.2.2 (by decide) rfl⟩
